import Mathlib

/-!
Shallow embedding of the loggo logger layer (src/logger.go) together with
the registry/module layer it depends on.  The `Logger` methods are
translated directly from src/logger.go; the `module`, context (registry),
`Level`, `Labels` and `Entry` types live in repository files outside src/
and are modelled from the spec where noted.
-/

namespace Loggo

/-- Severity scale. Modelled from the spec: totally ordered enumeration
UNSPECIFIED < TRACE < DEBUG < INFO < WARNING < ERROR < CRITICAL, with
UNSPECIFIED a sentinel meaning "inherit". -/
inductive Level where
  | UNSPECIFIED
  | TRACE
  | DEBUG
  | INFO
  | WARNING
  | ERROR
  | CRITICAL
deriving DecidableEq, Repr

/-- Numeric severity used for comparisons (the Go `Level` is an int). -/
def Level.toNat : Level → Nat
  | .UNSPECIFIED => 0
  | .TRACE => 1
  | .DEBUG => 2
  | .INFO => 3
  | .WARNING => 4
  | .ERROR => 5
  | .CRITICAL => 6

/-- Severity comparison `a <= b` on levels, as the Go int comparison. -/
def Level.ble (a b : Level) : Bool := decide (a.toNat ≤ b.toNat)

/-- The Go `Labels` type is `map[string]string`; we represent a map as an
association list with map-assignment semantics (`labelsPut`). -/
def Labels := List (String × String)
deriving DecidableEq

instance : Inhabited Labels := ⟨([] : List (String × String))⟩

/-- Map assignment `m[k] = v`: replace the value at an existing key,
otherwise add the binding. -/
def labelsPut (m : Labels) (k v : String) : Labels :=
  let l : List (String × String) := m
  if l.any (fun p => p.1 = k) then l.map (fun p => if p.1 = k then (k, v) else p)
  else l ++ [(k, v)]

/-- The Go `for k, v := range src { dst[k] = v }` copy loop landing in `dst`. -/
def labelsPutAll (dst src : Labels) : Labels :=
  List.foldl (fun acc p => labelsPut acc p.1 p.2) dst src

/-- Copy of a map into a freshly made empty map (`make(Labels)` + range loop). -/
def labelsCopy (m : Labels) : Labels := labelsPutAll ([] : List (String × String)) m

/-- Map lookup on the association-list representation. -/
def labelsFind (m : Labels) (k : String) : Option String :=
  List.lookup k m

/-- Number of bindings (`len` of the Go map; meaningful when keys are nodup). -/
def labelsLen (m : Labels) : Nat := (m : List (String × String)).length

/-- ASCII lower-casing of one character, as `Char.toLower`. -/
def lowerChar (c : Char) : Char :=
  if 65 ≤ c.toNat ∧ c.toNat ≤ 90 then Char.ofNat (c.toNat + 32) else c

/-- Modelled from the spec: registry names are "case-normalized to
lower-case"; we model the normalization as ASCII lower-casing. -/
def canonicalName (s : String) : String := ⟨s.data.map lowerChar⟩

/-- Characters of the parent module name: everything before the last dot
(empty when there is no dot, so every top segment's parent is the root). -/
def parentChars (cs : List Char) : List Char :=
  (((cs.reverse.dropWhile (fun c => c ≠ '.')).drop 1)).reverse

/-- Modelled from the spec: the parent of module "a.b.c" is "a.b"; a name
without a dot has the root "" as parent, and the root is its own parent. -/
def parentName (s : String) : String := ⟨parentChars s.data⟩

/-- Modelled from the spec: the registry (context) owning the module tree.
It owns each module's configured level and tag list; `id` stands for the
registry's identity (Go distinguishes registries by pointer).  The writer
set is not modelled: no claim below observes it. -/
structure LogContext where
  id : Nat
  levels : List (String × Level)
  tagsMap : List (String × List String)
deriving DecidableEq

/-- Configured (own) level of a module, UNSPECIFIED when never set. -/
def LogContext.levelOf (ctx : LogContext) (name : String) : Level :=
  (List.lookup name ctx.levels).getD Level.UNSPECIFIED

/-- Configured tags of a module, empty when never set. -/
def LogContext.tagsOf (ctx : LogContext) (name : String) : List String :=
  (List.lookup name ctx.tagsMap).getD []

theorem parentChars_length_lt (cs : List Char) (h : cs ≠ []) :
    (parentChars cs).length < cs.length := by
  unfold parentChars
  have h1 : (cs.reverse.dropWhile (fun c => c ≠ '.')).length ≤ cs.length := by
    calc (cs.reverse.dropWhile (fun c => c ≠ '.')).length
        ≤ cs.reverse.length := (List.dropWhile_sublist _).length_le
      _ = cs.length := List.length_reverse _
  have h3 : 0 < cs.length := List.length_pos.mpr h
  simp only [List.length_reverse, List.length_drop]
  omega

theorem parentName_length_lt (s : String) (h : s ≠ "") :
    (parentName s).length < s.length := by
  have hd : s.data ≠ [] := by
    intro hh
    apply h
    cases s with
    | mk d => cases hh; rfl
  exact parentChars_length_lt s.data hd

/-- Fuel-indexed parent-chain walk; the fuel only bounds the recursion
depth (a name's parent is strictly shorter, so `name.length + 1` steps
always suffice — see `getEffectiveAux_irrel`). -/
def getEffectiveAux (ctx : LogContext) : Nat → String → Level
  | 0, _ => Level.WARNING
  | fuel + 1, name =>
    if name = "" then
      if ctx.levelOf "" = Level.UNSPECIFIED then Level.WARNING else ctx.levelOf ""
    else if ctx.levelOf name = Level.UNSPECIFIED then
      getEffectiveAux ctx fuel (parentName name)
    else ctx.levelOf name

/-- Modelled from the spec: effective level resolution — a module's own
level when not UNSPECIFIED, otherwise the parent's effective level; the
root falls back to the fixed default WARNING when unset (the registry is
constructed with a non-UNSPECIFIED root level and `SetLevel` normalizes
UNSPECIFIED on the root to WARNING). -/
def getEffectiveLogLevel (ctx : LogContext) (name : String) : Level :=
  getEffectiveAux ctx (name.length + 1) name

/-- Any fuel above the name's length computes the same walk, so the fuel
in `getEffectiveLogLevel` is an implementation device, not semantics. -/
theorem getEffectiveAux_irrel (ctx : LogContext) :
    ∀ (fuel : Nat) (name : String), name.length < fuel →
      getEffectiveAux ctx fuel name = getEffectiveLogLevel ctx name := by
  intro fuel
  induction fuel using Nat.strong_induction_on with
  | _ fuel ih =>
    intro name hlt
    match fuel with
    | 0 => omega
    | f + 1 =>
      unfold getEffectiveLogLevel
      by_cases h0 : name = ""
      · simp [getEffectiveAux, h0]
      · by_cases hu : ctx.levelOf name = Level.UNSPECIFIED
        · have hp := parentName_length_lt name h0
          have hlen : 0 < name.length := by
            cases hn : name.length with
            | zero =>
              exfalso
              apply h0
              cases name with
              | mk d =>
                have : d.length = 0 := hn
                cases d with
                | nil => rfl
                | cons c cs => simp at this
            | succ n => omega
          have e1 : getEffectiveAux ctx (f + 1) name =
              getEffectiveAux ctx f (parentName name) := by
            simp [getEffectiveAux, h0, hu]
          have e2 : getEffectiveAux ctx (name.length + 1) name =
              getEffectiveAux ctx name.length (parentName name) := by
            simp [getEffectiveAux, h0, hu]
          rw [e1, e2]
          rcases Nat.lt_or_ge f (name.length + 1) with hf | hf
          · have : f = name.length := by omega
            rw [this]
          · rw [ih f (by omega) _ (by omega),
              ih name.length (by omega) _ (by omega)]
        · simp [getEffectiveAux, h0, hu]

/-- The recurrence the spec states for `EffectiveLevel`, satisfied by the
fuel implementation. -/
theorem getEffectiveLogLevel_eq (ctx : LogContext) (name : String) (h : name ≠ "") :
    getEffectiveLogLevel ctx name =
      if ctx.levelOf name = Level.UNSPECIFIED then
        getEffectiveLogLevel ctx (parentName name)
      else ctx.levelOf name := by
  unfold getEffectiveLogLevel
  by_cases hu : ctx.levelOf name = Level.UNSPECIFIED
  · simp only [getEffectiveAux, h, if_neg h, hu, if_true, if_pos hu]
    exact getEffectiveAux_irrel ctx name.length (parentName name)
      (parentName_length_lt name h)
  · simp [getEffectiveAux, h, hu]

/-- Modelled from the spec: a module (Node) — one element of the namespace.
Go handles hold a `*module`; two handles alias the same module exactly when
registry identity and canonical name agree, so the pair stands for the
pointer.  The module's level and tags live in the owning context. -/
structure GoModule where
  ctx : LogContext
  name : String
deriving DecidableEq

/-- Tags of the module, read from the owning registry. -/
def GoModule.tags (m : GoModule) : List String := m.ctx.tagsOf m.name

/-- Modelled from the spec: `WillWrite(level)` is `level >= EffectiveLevel()`. -/
def GoModule.willWrite (m : GoModule) (level : Level) : Bool :=
  Level.ble (getEffectiveLogLevel m.ctx m.name) level

/-- The Logger handle of src/logger.go: a module reference (nil for the
zero value) plus ad-hoc labels (the zero map is the empty list). -/
structure Logger where
  impl : Option GoModule
  labels : Labels
deriving DecidableEq

/-- The zero Logger value (`loggo.Logger{}`): nil module, nil label map. -/
def zeroLogger : Logger := { impl := none, labels := ([] : List (String × String)) }

/-- Modelled from the spec: `Registry.GetLogger(name)` canonicalizes the
name to lower case, find-or-creates the chain of modules, and returns a
handle with no ad-hoc labels.  The find-or-create mutation of the registry
map does not affect the returned handle value, which is determined by the
registry and the canonical name; claims below observe only handles and
entries, so the mutation is not threaded. -/
def contextGetLogger (ctx : LogContext) (name : String) : Logger :=
  { impl := some { ctx := ctx, name := canonicalName name },
    labels := ([] : List (String × String)) }

/-- Modelled from the spec and src/logger.go lines 40-45: a nil module
reference resolves to the default context's root module. -/
def Logger.getModule (logger : Logger) (defaultCtx : LogContext) : GoModule :=
  match logger.impl with
  | none => { ctx := defaultCtx, name := "" }
  | some m => m

/-- src/logger.go lines 28-38: `WithLabels` returns the receiver unchanged
on an empty map, otherwise a copy of the receiver whose labels field is a
fresh map populated only from the argument. -/
def Logger.WithLabels (logger : Logger) (labels : Labels) : Logger :=
  if labelsLen labels = 0 then logger
  else { logger with labels := labelsCopy labels }

/-- A Go `interface{}` argument to a log call; the two shapes exercised by
the repository (strings and ints) are modelled. -/
inductive GoVal where
  | str (s : String)
  | int (n : Int)
deriving DecidableEq, Repr

/-- Default rendering of a value, as `fmt` renders operands. -/
def goValString : GoVal → String
  | .str s => s
  | .int n => toString n

/-- Go type name of a value, used in `fmt` error annotations. -/
def goTypeName : GoVal → String
  | .str _ => "string"
  | .int _ => "int"

/-- Rendering of unconsumed operands: `fmt` appends a `%!(EXTRA ...)`
note listing each leftover operand as `type=value`. -/
def goExtra : List GoVal → List Char
  | [] => []
  | v :: vs =>
    ("%!(EXTRA " ++
      String.intercalate ", " ((v :: vs).map (fun a => goTypeName a ++ "=" ++ goValString a)) ++
      ")").data

/-- Character-level model of `fmt.Sprintf` over the supported operand
shapes: `%s`, `%d` and `%%` behave as in Go, and the mismatch cases
(wrong operand type, missing operand, unknown verb, extra operands,
trailing bare `%`) produce Go's `%!`-style annotations instead of
failing — `fmt.Sprintf` never panics on a malformed format string. -/
def sprintfAux : List Char → List GoVal → List Char
  | [], args => goExtra args
  | ['%'], args => ("%!(NOVERB)").data ++ goExtra args
  | '%' :: c :: rest, args =>
    if c = '%' then '%' :: sprintfAux rest args
    else if c = 's' then
      match args with
      | [] => ("%!s(MISSING)").data ++ sprintfAux rest []
      | .str s :: args2 => s.data ++ sprintfAux rest args2
      | .int n :: args2 => ("%!s(int=" ++ toString n ++ ")").data ++ sprintfAux rest args2
    else if c = 'd' then
      match args with
      | [] => ("%!d(MISSING)").data ++ sprintfAux rest []
      | .int n :: args2 => (toString n).data ++ sprintfAux rest args2
      | .str s :: args2 => ("%!d(string=" ++ s ++ ")").data ++ sprintfAux rest args2
    else
      match args with
      | [] => '%' :: '!' :: c :: ("(MISSING)").data ++ sprintfAux rest []
      | v :: args2 =>
        '%' :: '!' :: c :: ("(" ++ goTypeName v ++ "=" ++ goValString v ++ ")").data ++
          sprintfAux rest args2
  | c :: rest, args => c :: sprintfAux rest args

/-- String-level `fmt.Sprintf` model. -/
def sprintf (format : String) (args : List GoVal) : String :=
  ⟨sprintfAux format.data args⟩

/-- src/logger.go lines 152-156: drop one trailing newline when present
(`message[len-1] == '\n'` on a single-byte character is the same test as
on the last char). -/
def stripTrailingNewline (message : String) : String :=
  if message.data ≠ [] ∧ message.data.getLast? = some '\n' then ⟨message.data.dropLast⟩
  else message

/-- The reserved label key holding the joined tag list.  Modelled from the
spec's "one reserved key holds the comma-joined tag list"; its value
"logger-tags" is fixed by the repository's tests. -/
def LoggerTags : String := "logger-tags"

/-- One log record, as handed to writers.  Timestamp is the wall-clock
instant passed in by the environment; a missing `Labels` map (Go nil) is
the empty list. -/
structure Entry where
  Level : Level
  Filename : String
  Line : Nat
  Timestamp : Nat
  Message : String
  Labels : Labels
deriving DecidableEq

/-- src/logger.go lines 174-183: the entry's label map stays absent when
the module has no tags and the handle no ad-hoc labels; otherwise it is
built fresh, first the joined tags under the reserved key (when tags
exist), then the handle's ad-hoc labels assigned over it. -/
def mkEntryLabels (tags : List String) (labels : Labels) : Labels :=
  if tags.length > 0 ∨ labelsLen labels > 0 then
    labelsPutAll
      (if tags.length > 0 then [(LoggerTags, String.intercalate "," tags)]
       else ([] : List (String × String)))
      labels
  else ([] : List (String × String))

/-- src/logger.go lines 138-185: `LogCallf`.  The runtime environment is
passed explicitly: `frames` stands for `runtime.Caller` (the code consults
frame `calldepth + 1` and substitutes "???"/0 on failure) and `now` for
`time.Now()`.  The returned entry is what `module.write` would dispatch;
`none` means the call returned without building an entry. -/
def Logger.LogCallf (logger : Logger) (defaultCtx : LogContext)
    (frames : Nat → Option (String × Nat)) (calldepth : Nat) (now : Nat)
    (level : Level) (message : String) (args : List GoVal) : Option Entry :=
  let module := logger.getModule defaultCtx
  if module.willWrite level then
    let fl := (frames (calldepth + 1)).getD ("???", 0)
    let message1 := stripTrailingNewline message
    let formattedMessage := if args.length > 0 then sprintf message1 args else message1
    some { Level := level, Filename := fl.1, Line := fl.2, Timestamp := now,
           Message := formattedMessage,
           Labels := mkEntryLabels module.tags logger.labels }
  else none

/-- src/logger.go lines 127-129: `Logf` is `LogCallf` with calldepth 2. -/
def Logger.Logf (logger : Logger) (defaultCtx : LogContext)
    (frames : Nat → Option (String × Nat)) (now : Nat)
    (level : Level) (message : String) (args : List GoVal) : Option Entry :=
  logger.LogCallf defaultCtx frames 2 now level message args

/-- src/logger.go lines 187-190. -/
def Logger.Criticalf (logger : Logger) (defaultCtx : LogContext)
    (frames : Nat → Option (String × Nat)) (now : Nat)
    (message : String) (args : List GoVal) : Option Entry :=
  logger.Logf defaultCtx frames now Level.CRITICAL message args

/-- src/logger.go lines 192-195. -/
def Logger.Errorf (logger : Logger) (defaultCtx : LogContext)
    (frames : Nat → Option (String × Nat)) (now : Nat)
    (message : String) (args : List GoVal) : Option Entry :=
  logger.Logf defaultCtx frames now Level.ERROR message args

/-- src/logger.go lines 197-200. -/
def Logger.Warningf (logger : Logger) (defaultCtx : LogContext)
    (frames : Nat → Option (String × Nat)) (now : Nat)
    (message : String) (args : List GoVal) : Option Entry :=
  logger.Logf defaultCtx frames now Level.WARNING message args

/-- src/logger.go lines 202-205. -/
def Logger.Infof (logger : Logger) (defaultCtx : LogContext)
    (frames : Nat → Option (String × Nat)) (now : Nat)
    (message : String) (args : List GoVal) : Option Entry :=
  logger.Logf defaultCtx frames now Level.INFO message args

/-- src/logger.go lines 207-210. -/
def Logger.Debugf (logger : Logger) (defaultCtx : LogContext)
    (frames : Nat → Option (String × Nat)) (now : Nat)
    (message : String) (args : List GoVal) : Option Entry :=
  logger.Logf defaultCtx frames now Level.DEBUG message args

/-- src/logger.go lines 212-215. -/
def Logger.Tracef (logger : Logger) (defaultCtx : LogContext)
    (frames : Nat → Option (String × Nat)) (now : Nat)
    (message : String) (args : List GoVal) : Option Entry :=
  logger.Logf defaultCtx frames now Level.TRACE message args

/-- Modelled from the spec: module parent navigation — drop the last dotted
segment; the root is its own parent. -/
def moduleParent (m : GoModule) : GoModule :=
  { ctx := m.ctx, name := parentName m.name }

/-- src/logger.go lines 47-51: `Root` goes through the owning context's
`GetLogger("")`. -/
def Logger.Root (logger : Logger) (defaultCtx : LogContext) : Logger :=
  contextGetLogger (logger.getModule defaultCtx).ctx ""

/-- src/logger.go lines 58-60: `Parent` wraps the module's parent in a
handle literal whose labels field is the zero (empty) map. -/
def Logger.Parent (logger : Logger) (defaultCtx : LogContext) : Logger :=
  { impl := some (moduleParent (logger.getModule defaultCtx)),
    labels := ([] : List (String × String)) }

/-- src/logger.go lines 64-73: `Child` joins this module's name and the
suffix (just the suffix at root) and resolves it through the module's own
context. -/
def Logger.Child (logger : Logger) (defaultCtx : LogContext) (name : String) : Logger :=
  let module := logger.getModule defaultCtx
  let path := if module.name = "" then name else module.name ++ "." ++ name
  contextGetLogger module.ctx path

/-- src/logger.go lines 77-86: `ChildWithTags` resolves the same path
through the module's own context, passing tags.  The spec has `GetLogger`
merge newly supplied tags into the registry; the returned handle is the
same as without tags, and the registry mutation is not threaded (no claim
below observes it). -/
def Logger.ChildWithTags (logger : Logger) (defaultCtx : LogContext) (name : String)
    (tags : List String) : Logger :=
  let module := logger.getModule defaultCtx
  let path := if module.name = "" then name else module.name ++ "." ++ name
  let _ := tags
  contextGetLogger module.ctx path

/-- Modelled from the spec and tests: a module's display name, "<root>"
for the root's empty canonical name. -/
def GoModule.displayName (m : GoModule) : String :=
  if m.name = "" then "<root>" else m.name

/-- src/logger.go lines 89-91. -/
def Logger.Name (logger : Logger) (defaultCtx : LogContext) : String :=
  (logger.getModule defaultCtx).displayName

/-- src/logger.go lines 94-96: the module's own configured level. -/
def Logger.LogLevel (logger : Logger) (defaultCtx : LogContext) : Level :=
  (logger.getModule defaultCtx).ctx.levelOf (logger.getModule defaultCtx).name

/-- src/logger.go lines 99-101. -/
def Logger.Tags (logger : Logger) (defaultCtx : LogContext) : List String :=
  (logger.getModule defaultCtx).tags

/-- src/logger.go lines 110-112. -/
def Logger.EffectiveLogLevel (logger : Logger) (defaultCtx : LogContext) : Level :=
  getEffectiveLogLevel (logger.getModule defaultCtx).ctx (logger.getModule defaultCtx).name

/-- Assignment into the registry's level map. -/
def levelsStore (l : List (String × Level)) (k : String) (v : Level) :
    List (String × Level) :=
  if l.any (fun p => p.1 = k) then l.map (fun p => if p.1 = k then (k, v) else p)
  else l ++ [(k, v)]

/-- Modelled from the spec: `SetLevel` stores the given level on the
module, except that UNSPECIFIED on the root is normalized to the fixed
default WARNING.  The updated registry is returned as the observable. -/
def moduleSetLevel (m : GoModule) (level : Level) : LogContext :=
  let lvl := if m.name = "" ∧ level = Level.UNSPECIFIED then Level.WARNING else level
  { m.ctx with levels := levelsStore m.ctx.levels m.name lvl }

/-- src/logger.go lines 118-120. -/
def Logger.SetLogLevel (logger : Logger) (defaultCtx : LogContext) (level : Level) :
    LogContext :=
  moduleSetLevel (logger.getModule defaultCtx) level

/-- src/logger.go lines 219-221. -/
def Logger.IsLevelEnabled (logger : Logger) (defaultCtx : LogContext) (level : Level) :
    Bool :=
  (logger.getModule defaultCtx).willWrite level

/-- Heap of label maps.  Go maps are references into a heap; a cell index
stands for a map reference, so aliasing and mutation are observable. -/
structure LStore where
  cells : List Labels
deriving DecidableEq

/-- Dereference a map (out-of-range reads as the empty map for totality). -/
def LStore.read (st : LStore) (r : Nat) : Labels :=
  st.cells.getD r (([] : List (String × String)))

/-- In-place mutation of the map behind a reference. -/
def LStore.write (st : LStore) (r : Nat) (v : Labels) : LStore :=
  { cells := st.cells.set r v }

/-- A logger handle whose labels field is a map reference (Go semantics);
`none` is the nil map of the zero value. -/
structure LoggerRef where
  impl : Option GoModule
  labelsRef : Option Nat
deriving DecidableEq

/-- Heap-explicit rendering of src/logger.go lines 28-38: on a non-empty
argument, `result.labels = make(Labels)` allocates a fresh cell (here at
the end of the store) and the range loop copies the argument's bindings
into it; on an empty argument both store and handle are untouched. -/
def withLabelsRef (st : LStore) (lg : LoggerRef) (mref : Nat) : LStore × LoggerRef :=
  let m := st.read mref
  if labelsLen m = 0 then (st, lg)
  else ({ cells := st.cells ++ [labelsCopy m] },
        { lg with labelsRef := some st.cells.length })

/-- A concrete registry standing for the process-wide default context. -/
def sampleDefaultCtx : LogContext := { id := 0, levels := [], tagsMap := [] }

/-- A concrete registry with a configured root, one configured module and
tags, used to exercise the theorems below on closed inputs. -/
def sampleCtx : LogContext :=
  { id := 1,
    levels := [("", Level.WARNING), ("a.b", Level.DEBUG)],
    tagsMap := [("a.b", ["tag1", "tag2"])] }

/-- A concrete caller-location oracle. -/
def sampleFrames : Nat → Option (String × Nat) := fun _ => some ("file.go", 42)

/-- A concrete handle on the tagged module with one ad-hoc label. -/
def sampleLogger : Logger :=
  { impl := some { ctx := sampleCtx, name := "a.b" }, labels := [("foo", "bar")] }

/-- The entry `sampleLogger` produces for an accepted formatted call. -/
def sampleEntry : Entry :=
  { Level := Level.ERROR, Filename := "file.go", Line := 42, Timestamp := 9,
    Message := "done: ok",
    Labels := [("logger-tags", "tag1,tag2"), ("foo", "bar")] }

/-- The entry `sampleLogger` produces for an accepted argument-free call
whose message contains a literal percent sign. -/
def sampleEntryNoArgs : Entry :=
  { Level := Level.ERROR, Filename := "file.go", Line := 42, Timestamp := 9,
    Message := "100% done",
    Labels := [("logger-tags", "tag1,tag2"), ("foo", "bar")] }

/-! Helper lemmas about the map representation. -/

theorem lookup_cons_eq (a b : String) (es : List (String × String)) (k : String) :
    List.lookup k ((a, b) :: es) = if k = a then some b else List.lookup k es := by
  by_cases h : k = a
  · simp [List.lookup_cons, h]
  · have hf : (k == a) = false := beq_eq_false_iff_ne.mpr h
    simp [List.lookup_cons, hf, h]

theorem lookup_map_replace (m : List (String × String)) (k v k' : String) :
    List.lookup k' (m.map (fun p => if p.1 = k then (k, v) else p)) =
      if k' = k then (List.lookup k m).map (fun _ => v) else List.lookup k' m := by
  induction m with
  | nil => simp
  | cons p ps ih =>
    obtain ⟨a, b⟩ := p
    simp only [List.map_cons]
    by_cases hp : a = k
    · subst hp
      rw [if_pos rfl]
      simp only [lookup_cons_eq, if_pos rfl]
      by_cases hk : k' = a <;> simp [hk, ih]
    · rw [if_neg hp]
      simp only [lookup_cons_eq]
      rw [if_neg (show ¬k = a from fun hh => hp hh.symm)]
      by_cases hk' : k' = a
      · have hka : ¬k' = k := by
          rw [hk']
          exact hp
        simp [hk', hka, hp]
      · simp [hk', ih]

theorem lookup_append_single (m : List (String × String)) (k v k' : String)
    (hnk : m.any (fun p => p.1 = k) = false) :
    List.lookup k' (m ++ [(k, v)]) = if k' = k then some v else List.lookup k' m := by
  induction m with
  | nil => by_cases hk : k' = k <;> simp [lookup_cons_eq, hk]
  | cons p ps ih =>
    obtain ⟨a, b⟩ := p
    simp only [List.any_cons, Bool.or_eq_false_iff, decide_eq_false_iff_not] at hnk
    by_cases hk : k' = a
    · have hk2 : k' ≠ k := by
        rw [hk]
        exact hnk.1
      simp [lookup_cons_eq, hk, hk2, hnk.1]
    · simp only [List.cons_append, lookup_cons_eq]
      rw [if_neg hk, if_neg hk]
      exact ih (by simpa using hnk.2)

theorem lookup_isSome_of_any (m : List (String × String)) (k : String)
    (h : m.any (fun p => p.1 = k) = true) : (List.lookup k m).isSome = true := by
  induction m with
  | nil => simp at h
  | cons p ps ih =>
    obtain ⟨a, b⟩ := p
    simp only [List.any_cons, Bool.or_eq_true, decide_eq_true_eq] at h
    by_cases hp : a = k
    · simp [lookup_cons_eq, hp]
    · rw [lookup_cons_eq, if_neg (fun hh => hp hh.symm)]
      exact ih (h.resolve_left hp)

theorem lookup_put (m : List (String × String)) (k v k' : String) :
    List.lookup k' (labelsPut m k v) = if k' = k then some v else List.lookup k' m := by
  unfold labelsPut
  by_cases hany : m.any (fun p => p.1 = k) = true
  · simp only [hany, if_true, lookup_map_replace]
    have := lookup_isSome_of_any m k hany
    by_cases hk : k' = k
    · cases hlook : List.lookup k m with
      | none => rw [hlook] at this; simp at this
      | some w => simp [hk, hlook]
    · simp [hk]
  · rw [Bool.not_eq_true] at hany
    simp only [hany, Bool.false_eq_true, if_false]
    exact lookup_append_single m k v k' hany

theorem labelsFind_labelsPut (m : Labels) (k v k' : String) :
    labelsFind (labelsPut m k v) k' = if k' = k then some v else labelsFind m k' :=
  lookup_put (m : List (String × String)) k v k'

theorem lookup_eq_none_of_not_mem (m : List (String × String)) (k : String)
    (h : k ∉ m.map Prod.fst) : List.lookup k m = none := by
  induction m with
  | nil => rfl
  | cons p ps ih =>
    obtain ⟨a, b⟩ := p
    simp only [List.map_cons, List.mem_cons] at h
    push_neg at h
    rw [lookup_cons_eq, if_neg h.1]
    exact ih h.2

theorem lookup_putAll (adds : List (String × String)) :
    ∀ (base : List (String × String)) (k : String), (adds.map Prod.fst).Nodup →
      List.lookup k (labelsPutAll base adds) =
        (List.lookup k adds).or (List.lookup k base) := by
  induction adds with
  | nil => intro base k _; rfl
  | cons p ps ih =>
    intro base k hnd
    obtain ⟨a, b⟩ := p
    simp only [List.map_cons, List.nodup_cons] at hnd
    have step : labelsPutAll base ((a, b) :: ps) = labelsPutAll (labelsPut base a b) ps := rfl
    rw [step, ih _ k hnd.2, lookup_put, lookup_cons_eq]
    by_cases hk : k = a
    · rw [if_pos hk, if_pos hk]
      have hnone : List.lookup k ps = none :=
        lookup_eq_none_of_not_mem _ _ (by rw [hk]; exact hnd.1)
      rw [hnone]
      rfl
    · rw [if_neg hk, if_neg hk]

theorem labelsFind_labelsPutAll (adds : Labels) (base : Labels) (k : String)
    (hnd : ((adds : List (String × String)).map Prod.fst).Nodup) :
    labelsFind (labelsPutAll base adds) k =
      (labelsFind adds k).or (labelsFind base k) :=
  lookup_putAll (adds : List (String × String)) (base : List (String × String)) k hnd

theorem labelsPutAll_eq_append (m : List (String × String)) :
    ∀ acc : List (String × String), (m.map Prod.fst).Nodup →
      (∀ k, k ∈ m.map Prod.fst → k ∉ acc.map Prod.fst) →
      labelsPutAll acc m = acc ++ m := by
  induction m with
  | nil => intro acc _ _; simp [labelsPutAll, List.foldl]
  | cons p ps ih =>
    intro acc hnd hdisj
    simp only [List.map_cons, List.nodup_cons] at hnd
    have step : labelsPutAll acc (p :: ps : List (String × String)) =
        labelsPutAll (labelsPut acc p.1 p.2) ps := by
      simp [labelsPutAll, List.foldl]
    rw [step]
    have hput : labelsPut acc p.1 p.2 = acc ++ [(p.1, p.2)] := by
      unfold labelsPut
      have hnot : acc.any (fun q => q.1 = p.1) = false := by
        rw [List.any_eq_false]
        intro q hq
        simp only [decide_eq_true_eq]
        intro hq1
        exact hdisj p.1 (by simp) (by rw [← hq1]; exact List.mem_map_of_mem Prod.fst hq)
      simp [hnot]
    rw [hput, ih _ hnd.2]
    · simp
    · intro k hk
      simp only [List.map_append, List.mem_append]
      push_neg
      constructor
      · exact hdisj k (by simp [hk])
      · simp only [List.map_cons, List.map_nil, List.mem_singleton]
        intro hkp
        exact hnd.1 (hkp ▸ hk)

theorem labelsCopy_eq_self (m : Labels)
    (hnd : ((m : List (String × String)).map Prod.fst).Nodup) : labelsCopy m = m := by
  unfold labelsCopy
  have := labelsPutAll_eq_append (m : List (String × String)) [] hnd (by simp)
  simpa using this

/-! Helper lemmas about name canonicalization and newline stripping. -/

theorem charOfNat_toNat (n : Nat) (h : n < 55296) : (Char.ofNat n).toNat = n := by
  have hv : n.isValidChar := Or.inl h
  simp [Char.ofNat, hv, Char.ofNatAux, Char.toNat, UInt32.toNat]

theorem lowerChar_idem (c : Char) : lowerChar (lowerChar c) = lowerChar c := by
  unfold lowerChar
  by_cases h : 65 ≤ c.toNat ∧ c.toNat ≤ 90
  · rw [if_pos h]
    have h2 : (Char.ofNat (c.toNat + 32)).toNat = c.toNat + 32 := by
      apply charOfNat_toNat
      omega
    rw [h2]
    have h3 : ¬(65 ≤ c.toNat + 32 ∧ c.toNat + 32 ≤ 90) := by omega
    rw [if_neg h3]
  · rw [if_neg h, if_neg h]

theorem canonicalName_data (s : String) :
    (canonicalName s).data = s.data.map lowerChar := rfl

theorem canonicalName_append (s t : String) :
    canonicalName (s ++ t) = canonicalName s ++ canonicalName t := by
  apply String.ext
  simp [canonicalName_data, String.data_append]

theorem canonicalName_idem (s : String) :
    canonicalName (canonicalName s) = canonicalName s := by
  apply String.ext
  simp only [canonicalName_data, List.map_map]
  exact List.map_congr_left (fun c _ => lowerChar_idem c)

theorem canonicalName_eq_empty_iff (s : String) : canonicalName s = "" ↔ s = "" := by
  constructor
  · intro h
    have hd : s.data.map lowerChar = [] := by
      rw [← canonicalName_data, h]
    apply String.ext
    simpa using hd
  · intro h
    rw [h]
    rfl

theorem canonicalName_dot : canonicalName "." = "." := rfl

theorem stripTrailingNewline_of_newline (s : String) (h : s.data.getLast? = some '\n') :
    stripTrailingNewline s ++ "\n" = s := by
  have hne : s.data ≠ [] := by
    intro hh
    rw [hh] at h
    simp at h
  have hlast : s.data.getLast hne = '\n' := by
    have h2 := List.getLast?_eq_getLast s.data hne
    rw [h2] at h
    exact Option.some.inj h
  unfold stripTrailingNewline
  rw [if_pos ⟨hne, h⟩]
  apply String.ext
  rw [String.data_append]
  show s.data.dropLast ++ ['\n'] = s.data
  rw [← hlast]
  exact List.dropLast_append_getLast hne

theorem stripTrailingNewline_of_no_newline (s : String) (h : s.data.getLast? ≠ some '\n') :
    stripTrailingNewline s = s := by
  unfold stripTrailingNewline
  rw [if_neg (fun hh => h hh.2)]

theorem labelsFind_mkEntryLabels (tags : List String) (labels : Labels) (k : String)
    (hnd : ((labels : List (String × String)).map Prod.fst).Nodup) :
    labelsFind (mkEntryLabels tags labels) k =
      (labelsFind labels k).or
        (if tags ≠ [] ∧ k = LoggerTags then
          some (String.intercalate "," tags) else none) := by
  unfold mkEntryLabels
  by_cases ht : tags.length > 0
  · have htne : tags ≠ [] := by
      intro hh
      rw [hh] at ht
      simp at ht
    rw [if_pos (Or.inl ht), if_pos ht,
      labelsFind_labelsPutAll labels [(LoggerTags, String.intercalate "," tags)] k hnd]
    congr 1
    show List.lookup k [(LoggerTags, String.intercalate "," tags)] = _
    rw [lookup_cons_eq]
    by_cases hk : k = LoggerTags
    · rw [if_pos hk, if_pos ⟨htne, hk⟩]
    · rw [if_neg hk, if_neg (fun hh => hk hh.2)]
      rfl
  · have ht0 : tags = [] := by
      cases tags with
      | nil => rfl
      | cons t ts => simp at ht
    subst ht0
    by_cases hl : labelsLen labels > 0
    · rw [if_pos (Or.inr hl)]
      show labelsFind (labelsPutAll ([] : List (String × String)) labels) k = _
      rw [labelsFind_labelsPutAll labels ([] : List (String × String)) k hnd]
      rfl
    · have hlen : (labels : List (String × String)).length = 0 := by
        unfold labelsLen at hl
        omega
      have hl0 : labels = ([] : List (String × String)) := List.length_eq_zero.mp hlen
      rw [if_neg (by simp [labelsLen, hlen])]
      rw [hl0]
      rfl

theorem getModule_some (m : GoModule) (labels : Labels) (d : LogContext) :
    Logger.getModule { impl := some m, labels := labels } d = m := rfl

/-! Theorems settling the claims. -/

/-- C9: for every handle, `Parent` returns a handle that carries no ad-hoc
labels, even when the receiving handle carried labels. -/
theorem C9_parent_has_no_labels (d : LogContext) (lg : Logger) :
    (lg.Parent d).labels = ([] : List (String × String)) := rfl

/-- C7: each per-level convenience call (Tracef, Debugf, Infof, Warningf,
Errorf, Criticalf) produces exactly the behaviour of `Logf` at the
corresponding fixed level, for every logger, message and argument list. -/
theorem C7_convenience_equals_Logf (d : LogContext) (lg : Logger)
    (frames : Nat → Option (String × Nat)) (now : Nat) (msg : String)
    (args : List GoVal) :
    lg.Tracef d frames now msg args = lg.Logf d frames now Level.TRACE msg args ∧
    lg.Debugf d frames now msg args = lg.Logf d frames now Level.DEBUG msg args ∧
    lg.Infof d frames now msg args = lg.Logf d frames now Level.INFO msg args ∧
    lg.Warningf d frames now msg args = lg.Logf d frames now Level.WARNING msg args ∧
    lg.Errorf d frames now msg args = lg.Logf d frames now Level.ERROR msg args ∧
    lg.Criticalf d frames now msg args = lg.Logf d frames now Level.CRITICAL msg args :=
  ⟨rfl, rfl, rfl, rfl, rfl, rfl⟩

/-- C2: a log call strictly below the logger's effective level builds no
entry and performs no formatting — the result is `none` for every message
and argument list, malformed format strings included. -/
theorem C2_disabled_level_no_entry (d : LogContext) (lg : Logger)
    (frames : Nat → Option (String × Nat)) (calldepth now : Nat)
    (level : Level) (msg : String) (args : List GoVal)
    (h : level.toNat < (lg.EffectiveLogLevel d).toNat) :
    lg.LogCallf d frames calldepth now level msg args = none := by
  have hw : (lg.getModule d).willWrite level = false := by
    unfold GoModule.willWrite Level.ble
    rw [decide_eq_false_iff_not]
    unfold Logger.EffectiveLogLevel at h
    omega
  simp [Logger.LogCallf, hw]

/-- Witness for C2 at a concrete registry: DEBUG is below the inherited
WARNING threshold and a mismatched format produces no entry and no error. -/
theorem C2_disabled_level_no_entry_witness :
    Level.DEBUG.toNat <
      ((contextGetLogger sampleCtx "other").EffectiveLogLevel sampleDefaultCtx).toNat ∧
    (contextGetLogger sampleCtx "other").LogCallf sampleDefaultCtx sampleFrames 2 7
      Level.DEBUG "count %d" [GoVal.str "oops"] = none :=
  ⟨by decide,
   C2_disabled_level_no_entry sampleDefaultCtx (contextGetLogger sampleCtx "other")
     sampleFrames 2 7 Level.DEBUG "count %d" [GoVal.str "oops"] (by decide)⟩

/-- C1 counterexample: `WithLabels` does not merge the argument over the
labels the handle already carried — on a handle labelled foo=bar,
`WithLabels {baz: qux}` yields labels {baz: qux}, not the merge
{foo: bar, baz: qux} the claim describes. -/
theorem C1_withLabels_merge_counterexample :
    (sampleLogger.WithLabels [("baz", "qux")]).labels ≠
      labelsPutAll sampleLogger.labels ([("baz", "qux")] : List (String × String)) := by
  decide

/-- C1 amended: `WithLabels` on an empty map returns the handle unchanged;
on a non-empty map it returns a handle referencing the same module whose
label set is a fresh copy of the argument alone — labels the handle
already carried are discarded. -/
theorem C1_withLabels_replaces (lg : Logger) (m : Labels) (k : String) :
    (labelsLen m = 0 → lg.WithLabels m = lg) ∧
    (labelsLen m ≠ 0 → (lg.WithLabels m).impl = lg.impl) ∧
    (labelsLen m ≠ 0 → ((m : List (String × String)).map Prod.fst).Nodup →
      labelsFind (lg.WithLabels m).labels k = labelsFind m k) := by
  refine ⟨?_, ?_, ?_⟩
  · intro h0
    unfold Logger.WithLabels
    rw [if_pos h0]
  · intro h0
    unfold Logger.WithLabels
    rw [if_neg h0]
  · intro h0 hnd
    unfold Logger.WithLabels
    rw [if_neg h0]
    show labelsFind (labelsCopy m) k = labelsFind m k
    rw [labelsCopy_eq_self m hnd]

/-- Witness for the amended C1 on a concrete handle and map. -/
theorem C1_withLabels_replaces_witness :
    (labelsLen ([("baz", "qux")] : List (String × String)) = 0 →
      sampleLogger.WithLabels [("baz", "qux")] = sampleLogger) ∧
    (labelsLen ([("baz", "qux")] : List (String × String)) ≠ 0 →
      (sampleLogger.WithLabels [("baz", "qux")]).impl = sampleLogger.impl) ∧
    (labelsLen ([("baz", "qux")] : List (String × String)) ≠ 0 →
      (([("baz", "qux")] : List (String × String)).map Prod.fst).Nodup →
      labelsFind (sampleLogger.WithLabels [("baz", "qux")]).labels "baz" =
        labelsFind ([("baz", "qux")] : List (String × String)) "baz") :=
  C1_withLabels_replaces sampleLogger [("baz", "qux")] "baz"

/-- C5: on an accepted call, printf formatting is applied exactly when the
argument list is non-empty; with no arguments the (newline-stripped)
message is used verbatim, literal percent signs included. -/
theorem C5_format_only_with_args (d : LogContext) (lg : Logger)
    (frames : Nat → Option (String × Nat)) (calldepth now : Nat)
    (level : Level) (msg : String) (args : List GoVal) (e : Entry)
    (h : lg.LogCallf d frames calldepth now level msg args = some e) :
    (args = [] → e.Message = stripTrailingNewline msg) ∧
    (args ≠ [] → e.Message = sprintf (stripTrailingNewline msg) args) := by
  simp only [Logger.LogCallf] at h
  split at h
  · injection h with h1
    subst h1
    constructor
    · intro ha
      subst ha
      rfl
    · intro ha
      have hl : args.length > 0 := List.length_pos.mpr ha
      simp [hl]
  · cases h

/-- Witness for C5: an argument-free call whose message contains a literal
percent sign lands verbatim in the entry. -/
theorem C5_format_only_with_args_witness :
    (([] : List GoVal) = [] →
      sampleEntryNoArgs.Message = stripTrailingNewline "100% done") ∧
    (([] : List GoVal) ≠ [] →
      sampleEntryNoArgs.Message = sprintf (stripTrailingNewline "100% done") []) :=
  C5_format_only_with_args sampleDefaultCtx sampleLogger sampleFrames 2 9 Level.ERROR
    "100% done" [] sampleEntryNoArgs (by decide)

/-- C4: on an accepted call the entry's message is the fully resolved
string — the newline-stripped format string with the arguments applied
when any were supplied — and the stripping removes exactly one trailing
newline when one is present and nothing otherwise. -/
theorem C4_message_resolved_newline_stripped (d : LogContext) (lg : Logger)
    (frames : Nat → Option (String × Nat)) (calldepth now : Nat)
    (level : Level) (msg : String) (args : List GoVal) (e : Entry)
    (h : lg.LogCallf d frames calldepth now level msg args = some e) :
    e.Message = (if args.length > 0 then sprintf (stripTrailingNewline msg) args
                 else stripTrailingNewline msg) ∧
    (msg.data.getLast? = some '\n' → stripTrailingNewline msg ++ "\n" = msg) ∧
    (msg.data.getLast? ≠ some '\n' → stripTrailingNewline msg = msg) := by
  refine ⟨?_, stripTrailingNewline_of_newline msg, stripTrailingNewline_of_no_newline msg⟩
  simp only [Logger.LogCallf] at h
  split at h
  · injection h with h1
    subst h1
    rfl
  · cases h

/-- Witness for C4: a newline-terminated format with one argument resolves
fully and loses exactly the one trailing newline. -/
theorem C4_message_resolved_newline_stripped_witness :
    sampleEntry.Message =
      (if ([GoVal.str "ok"] : List GoVal).length > 0 then
        sprintf (stripTrailingNewline "done: %s\n") [GoVal.str "ok"]
       else stripTrailingNewline "done: %s\n") ∧
    (("done: %s\n" : String).data.getLast? = some '\n' →
      stripTrailingNewline "done: %s\n" ++ "\n" = "done: %s\n") ∧
    (("done: %s\n" : String).data.getLast? ≠ some '\n' →
      stripTrailingNewline "done: %s\n" = "done: %s\n") :=
  C4_message_resolved_newline_stripped sampleDefaultCtx sampleLogger sampleFrames 2 9
    Level.ERROR "done: %s\n" [GoVal.str "ok"] sampleEntry (by decide)

/-- C3: on an accepted call the entry's labels are absent when the module
has no tags and the handle no ad-hoc labels; otherwise the lookup of any
key resolves first in the handle's ad-hoc labels and only then in the
joined-tags binding under the reserved key — so tags appear comma-joined
under the reserved key and the ad-hoc value wins a key collision. -/
theorem C3_entry_label_merge (d : LogContext) (lg : Logger)
    (frames : Nat → Option (String × Nat)) (calldepth now : Nat)
    (level : Level) (msg : String) (args : List GoVal) (e : Entry) (k : String)
    (h : lg.LogCallf d frames calldepth now level msg args = some e)
    (hnd : ((lg.labels : List (String × String)).map Prod.fst).Nodup) :
    ((lg.getModule d).tags = [] ∧ lg.labels = ([] : List (String × String)) →
      e.Labels = ([] : List (String × String))) ∧
    labelsFind e.Labels k =
      (labelsFind lg.labels k).or
        (if (lg.getModule d).tags ≠ [] ∧ k = LoggerTags then
          some (String.intercalate "," (lg.getModule d).tags) else none) := by
  simp only [Logger.LogCallf] at h
  split at h
  · injection h with h1
    subst h1
    constructor
    · rintro ⟨ht, hl⟩
      show mkEntryLabels (lg.getModule d).tags lg.labels = ([] : List (String × String))
      rw [ht, hl]
      rfl
    · exact labelsFind_mkEntryLabels (lg.getModule d).tags lg.labels k hnd
  · cases h

/-- Witness for C3 on the reserved key: the tagged module's joined tags
appear under it because the handle's ad-hoc labels do not bind it. -/
theorem C3_entry_label_merge_witness :
    ((sampleLogger.getModule sampleDefaultCtx).tags = [] ∧
      sampleLogger.labels = ([] : List (String × String)) →
      sampleEntry.Labels = ([] : List (String × String))) ∧
    labelsFind sampleEntry.Labels "logger-tags" =
      (labelsFind sampleLogger.labels "logger-tags").or
        (if (sampleLogger.getModule sampleDefaultCtx).tags ≠ [] ∧
            "logger-tags" = LoggerTags then
          some (String.intercalate "," (sampleLogger.getModule sampleDefaultCtx).tags)
         else none) :=
  C3_entry_label_merge sampleDefaultCtx sampleLogger sampleFrames 2 9 Level.ERROR
    "done: %s\n" [GoVal.str "ok"] sampleEntry "logger-tags" (by decide) (by decide)

/-- C8: the zero Logger value resolves to the default context's root
module, and every operation on it behaves as the same operation on the
handle the default context returns for the root name. -/
theorem C8_zero_logger_is_default_root (d : LogContext) :
    zeroLogger.getModule d = (contextGetLogger d "").getModule d ∧
    (∀ (frames : Nat → Option (String × Nat)) (calldepth now : Nat) (level : Level)
      (msg : String) (args : List GoVal),
      zeroLogger.LogCallf d frames calldepth now level msg args =
        (contextGetLogger d "").LogCallf d frames calldepth now level msg args) ∧
    zeroLogger.Name d = (contextGetLogger d "").Name d ∧
    zeroLogger.LogLevel d = (contextGetLogger d "").LogLevel d ∧
    zeroLogger.EffectiveLogLevel d = (contextGetLogger d "").EffectiveLogLevel d ∧
    zeroLogger.Tags d = (contextGetLogger d "").Tags d ∧
    (∀ level : Level,
      zeroLogger.IsLevelEnabled d level = (contextGetLogger d "").IsLevelEnabled d level) ∧
    (∀ n : String, zeroLogger.Child d n = (contextGetLogger d "").Child d n) ∧
    (∀ (n : String) (ts : List String),
      zeroLogger.ChildWithTags d n ts = (contextGetLogger d "").ChildWithTags d n ts) ∧
    zeroLogger.Parent d = (contextGetLogger d "").Parent d ∧
    zeroLogger.Root d = (contextGetLogger d "").Root d ∧
    (∀ level : Level,
      zeroLogger.SetLogLevel d level = (contextGetLogger d "").SetLogLevel d level) := by
  refine ⟨rfl, ?_, rfl, rfl, rfl, rfl, ?_, ?_, ?_, rfl, rfl, ?_⟩ <;> intros <;> rfl

/-- C6 counterexample: at the root handle with an empty first suffix the
composition law fails — `Child("")` at root resolves the root itself, so
the second step yields module "x", while the single call resolves ".x". -/
theorem C6_child_composition_counterexample :
    ((contextGetLogger sampleCtx "").Child sampleDefaultCtx "").Child sampleDefaultCtx "x" ≠
      (contextGetLogger sampleCtx "").Child sampleDefaultCtx ("" ++ "." ++ "x") := by
  decide

/-- C6 amended: whenever the first suffix is non-empty or the handle is
non-root, `Child a` then `Child b` equals the single `Child (a ++ "." ++ b)`,
and `Child` always resolves through the registry the handle's module
belongs to, never the process-wide default. -/
theorem C6_child_composition_amended (d : LogContext) (lg : Logger) (a b : String)
    (h : a ≠ "" ∨ (lg.getModule d).name ≠ "") :
    (lg.Child d a).Child d b = lg.Child d (a ++ "." ++ b) ∧
    ((lg.Child d a).getModule d).ctx = (lg.getModule d).ctx := by
  refine ⟨?_, rfl⟩
  have key : ∀ n : String, (a ≠ "" ∨ n ≠ "") →
      canonicalName (if canonicalName (if n = "" then a else n ++ "." ++ a) = "" then b
        else canonicalName (if n = "" then a else n ++ "." ++ a) ++ "." ++ b) =
      canonicalName (if n = "" then a ++ "." ++ b else n ++ "." ++ (a ++ "." ++ b)) := by
    intro n hn
    by_cases hn0 : n = ""
    · have ha : a ≠ "" := hn.resolve_right (not_not_intro hn0)
      have hca : canonicalName a ≠ "" :=
        fun hh => ha ((canonicalName_eq_empty_iff a).mp hh)
      rw [if_pos hn0, if_pos hn0, if_neg hca]
      simp [canonicalName_append, canonicalName_idem, canonicalName_dot,
        String.append_assoc]
    · have hp1 : canonicalName (n ++ "." ++ a) ≠ "" := by
        intro hh
        have hempty := (canonicalName_eq_empty_iff _).mp hh
        have hd : (n ++ "." ++ a).data = n.data ++ ['.'] ++ a.data := by
          simp [String.data_append]
        rw [hempty] at hd
        simp at hd
      rw [if_neg hn0, if_neg hn0, if_neg hp1]
      simp [canonicalName_append, canonicalName_idem, canonicalName_dot,
        String.append_assoc]
  simp only [Logger.Child, contextGetLogger, getModule_some]
  rw [key (lg.getModule d).name h]

/-- Witness for the amended C6 on concrete mixed-case suffixes. -/
theorem C6_child_composition_witness :
    ((sampleLogger.Child sampleDefaultCtx "A").Child sampleDefaultCtx "B" =
      sampleLogger.Child sampleDefaultCtx ("A" ++ "." ++ "B")) ∧
    ((sampleLogger.Child sampleDefaultCtx "A").getModule sampleDefaultCtx).ctx =
      (sampleLogger.getModule sampleDefaultCtx).ctx :=
  C6_child_composition_amended sampleDefaultCtx sampleLogger "A" "B" (by decide)

/-- C10: `WithLabels` under the map heap — no cell that existed before the
call is changed (so the receiver's label set and the argument are intact),
the returned handle points at the freshly allocated cell past the old end
of the store holding a copy of the argument, and mutating the argument's
cell afterwards leaves the returned handle's cell untouched. -/
theorem C10_withLabels_frame_and_fresh_copy (st : LStore) (lg : LoggerRef)
    (mref r : Nat) (v : Labels) :
    (r < st.cells.length → (withLabelsRef st lg mref).1.read r = st.read r) ∧
    (labelsLen (st.read mref) = 0 → withLabelsRef st lg mref = (st, lg)) ∧
    (labelsLen (st.read mref) ≠ 0 →
      (withLabelsRef st lg mref).2.labelsRef = some st.cells.length ∧
      (withLabelsRef st lg mref).2.impl = lg.impl ∧
      (withLabelsRef st lg mref).1.read st.cells.length = labelsCopy (st.read mref) ∧
      ((((st.read mref) : List (String × String)).map Prod.fst).Nodup →
        (withLabelsRef st lg mref).1.read st.cells.length = st.read mref) ∧
      (mref < st.cells.length →
        ((withLabelsRef st lg mref).1.write mref v).read st.cells.length =
          labelsCopy (st.read mref))) := by
  by_cases h0 : labelsLen (st.read mref) = 0
  · have hres0 : withLabelsRef st lg mref = (st, lg) := by
      unfold withLabelsRef
      rw [if_pos h0]
    exact ⟨fun _ => by rw [hres0], fun _ => hres0, fun hc => absurd h0 hc⟩
  · have hres : withLabelsRef st lg mref =
        ({ cells := st.cells ++ [labelsCopy (st.read mref)] },
         { impl := lg.impl, labelsRef := some st.cells.length }) := by
      unfold withLabelsRef
      rw [if_neg h0]
    have hat : (LStore.mk (st.cells ++ [labelsCopy (st.read mref)])).read
        st.cells.length = labelsCopy (st.read mref) := by
      unfold LStore.read
      rw [List.getD_append_right _ _ _ _ (le_refl _)]
      simp
    rw [hres]
    refine ⟨?_, fun hc => absurd hc h0, fun _ => ⟨rfl, rfl, hat, ?_, ?_⟩⟩
    · intro hrr
      unfold LStore.read
      exact List.getD_append _ _ _ _ hrr
    · intro hnd
      rw [hat]
      exact labelsCopy_eq_self _ hnd
    · intro hmref
      unfold LStore.write LStore.read
      rw [List.getD_eq_getElem?_getD,
        List.getElem?_set_ne (Nat.ne_of_lt hmref),
        List.getElem?_append_right (le_refl _)]
      simp

/-- Witness for C10 on a concrete two-cell store: cell 0 is the handle's
own labels, cell 1 the argument map. -/
theorem C10_withLabels_frame_and_fresh_copy_witness :
    (0 < (LStore.mk [[("a", "1")], [("b", "2")]]).cells.length →
      (withLabelsRef (LStore.mk [[("a", "1")], [("b", "2")]])
        (LoggerRef.mk none (some 0)) 1).1.read 0 =
        (LStore.mk [[("a", "1")], [("b", "2")]]).read 0) ∧
    (labelsLen ((LStore.mk [[("a", "1")], [("b", "2")]]).read 1) = 0 →
      withLabelsRef (LStore.mk [[("a", "1")], [("b", "2")]])
        (LoggerRef.mk none (some 0)) 1 =
        ((LStore.mk [[("a", "1")], [("b", "2")]]), (LoggerRef.mk none (some 0)))) ∧
    (labelsLen ((LStore.mk [[("a", "1")], [("b", "2")]]).read 1) ≠ 0 →
      (withLabelsRef (LStore.mk [[("a", "1")], [("b", "2")]])
        (LoggerRef.mk none (some 0)) 1).2.labelsRef =
        some (LStore.mk [[("a", "1")], [("b", "2")]]).cells.length ∧
      (withLabelsRef (LStore.mk [[("a", "1")], [("b", "2")]])
        (LoggerRef.mk none (some 0)) 1).2.impl = (LoggerRef.mk none (some 0)).impl ∧
      (withLabelsRef (LStore.mk [[("a", "1")], [("b", "2")]])
        (LoggerRef.mk none (some 0)) 1).1.read
          (LStore.mk [[("a", "1")], [("b", "2")]]).cells.length =
        labelsCopy ((LStore.mk [[("a", "1")], [("b", "2")]]).read 1) ∧
      (((((LStore.mk [[("a", "1")], [("b", "2")]]).read 1) :
          List (String × String)).map Prod.fst).Nodup →
        (withLabelsRef (LStore.mk [[("a", "1")], [("b", "2")]])
          (LoggerRef.mk none (some 0)) 1).1.read
            (LStore.mk [[("a", "1")], [("b", "2")]]).cells.length =
          (LStore.mk [[("a", "1")], [("b", "2")]]).read 1) ∧
      (1 < (LStore.mk [[("a", "1")], [("b", "2")]]).cells.length →
        ((withLabelsRef (LStore.mk [[("a", "1")], [("b", "2")]])
          (LoggerRef.mk none (some 0)) 1).1.write 1 [("mutated", "later")]).read
            (LStore.mk [[("a", "1")], [("b", "2")]]).cells.length =
          labelsCopy ((LStore.mk [[("a", "1")], [("b", "2")]]).read 1))) :=
  C10_withLabels_frame_and_fresh_copy (LStore.mk [[("a", "1")], [("b", "2")]])
    (LoggerRef.mk none (some 0)) 1 0 [("mutated", "later")]

